import Mathlib

/-!
Verification of the core of `student_mgmt.py` (student management system).

The program keeps an in-memory list `students` of JSON-like dictionaries
(`{"roll_no": ..., "name": ..., "grade": ..., "age": ...}`), mutated by
`add_student`, `update_student`, `delete_student`, searched by
`search_by_roll`, and persisted wholesale via `load_data` / `save_data`
to a JSON file.

Embedding conventions:
- JSON values are modelled by the inductive `Json`; Python dicts are
  association lists (`obj`), preserving insertion order, with
  `lookupKey` (= `d[k]` semantics, first matching key) and `setKey`
  (= `d[k] = v`: overwrite in place if the key exists, else append),
  matching Python dict behaviour.
- Interactive prompts are modelled as explicit string parameters, already
  stripped (every `input(...)` in the source is immediately `.strip()`ed).
  `prompt_nonempty` guarantees become non-emptiness hypotheses.
- Python exceptions (`TypeError` from indexing a non-dict, `KeyError`
  from a missing key) are modelled as `Except.error`.
- The on-disk file is modelled by `FileState`, holding the JSON value the
  file parses to (abstracting text serialization: `json.dump` followed by
  `json.load` reproduces the value). Whether `save_data` was called is
  returned as a `Bool` flag by each mutating operation.
- Python `str.upper()` / `str.lower()` are modelled character-wise by
  `pyUpper` / `pyLower`.
-/

namespace StudentMgmt

/-- JSON values (the shapes `json.load` can produce). -/
inductive Json where
  | null
  | bool (b : Bool)
  | num (n : Int)
  | str (s : String)
  | arr (elems : List Json)
  | obj (kvs : List (String × Json))

mutual

def Json.decEq : (a b : Json) → Decidable (a = b)
  | .null, .null => isTrue rfl
  | .bool a, .bool b =>
    if h : a = b then isTrue (by rw [h]) else isFalse (by simp [h])
  | .num a, .num b =>
    if h : a = b then isTrue (by rw [h]) else isFalse (by simp [h])
  | .str a, .str b =>
    if h : a = b then isTrue (by rw [h]) else isFalse (by simp [h])
  | .arr a, .arr b =>
    match Json.decEqList a b with
    | isTrue h => isTrue (by rw [h])
    | isFalse h => isFalse (by simp [h])
  | .obj a, .obj b =>
    match Json.decEqKVs a b with
    | isTrue h => isTrue (by rw [h])
    | isFalse h => isFalse (by simp [h])
  | .null, .bool _ => isFalse nofun
  | .null, .num _ => isFalse nofun
  | .null, .str _ => isFalse nofun
  | .null, .arr _ => isFalse nofun
  | .null, .obj _ => isFalse nofun
  | .bool _, .null => isFalse nofun
  | .bool _, .num _ => isFalse nofun
  | .bool _, .str _ => isFalse nofun
  | .bool _, .arr _ => isFalse nofun
  | .bool _, .obj _ => isFalse nofun
  | .num _, .null => isFalse nofun
  | .num _, .bool _ => isFalse nofun
  | .num _, .str _ => isFalse nofun
  | .num _, .arr _ => isFalse nofun
  | .num _, .obj _ => isFalse nofun
  | .str _, .null => isFalse nofun
  | .str _, .bool _ => isFalse nofun
  | .str _, .num _ => isFalse nofun
  | .str _, .arr _ => isFalse nofun
  | .str _, .obj _ => isFalse nofun
  | .arr _, .null => isFalse nofun
  | .arr _, .bool _ => isFalse nofun
  | .arr _, .num _ => isFalse nofun
  | .arr _, .str _ => isFalse nofun
  | .arr _, .obj _ => isFalse nofun
  | .obj _, .null => isFalse nofun
  | .obj _, .bool _ => isFalse nofun
  | .obj _, .num _ => isFalse nofun
  | .obj _, .str _ => isFalse nofun
  | .obj _, .arr _ => isFalse nofun

def Json.decEqList : (a b : List Json) → Decidable (a = b)
  | [], [] => isTrue rfl
  | [], _ :: _ => isFalse nofun
  | _ :: _, [] => isFalse nofun
  | x :: xs, y :: ys =>
    match Json.decEq x y, Json.decEqList xs ys with
    | isTrue h1, isTrue h2 => isTrue (by rw [h1, h2])
    | isFalse h1, _ => isFalse (by simp [h1])
    | _, isFalse h2 => isFalse (by simp [h2])

def Json.decEqKVs : (a b : List (String × Json)) → Decidable (a = b)
  | [], [] => isTrue rfl
  | [], _ :: _ => isFalse nofun
  | _ :: _, [] => isFalse nofun
  | (k1, v1) :: xs, (k2, v2) :: ys =>
    if hk : k1 = k2 then
      match Json.decEq v1 v2, Json.decEqKVs xs ys with
      | isTrue h1, isTrue h2 => isTrue (by rw [hk, h1, h2])
      | isFalse h1, _ => isFalse (by simp [h1])
      | _, isFalse h2 => isFalse (by simp [h2])
    else isFalse (by simp [hk])

end

instance : DecidableEq Json := Json.decEq

/-- Python dict indexing `d[k]`: value of the first matching key, if any. -/
def lookupKey : List (String × Json) → String → Option Json
  | [], _ => none
  | (k, v) :: rest, key => if k = key then some v else lookupKey rest key

/-- Python dict assignment `d[k] = v`: overwrite the existing key in place
(keeping its position), or append a new entry. -/
def setKey : List (String × Json) → String → Json → List (String × Json)
  | [], key, v => [(key, v)]
  | (k, v') :: rest, key, v =>
    if k = key then (k, v) :: rest else (k, v') :: setKey rest key v

/-- Python `str.upper()`: uppercase each character (character-wise model,
written over the character list so it evaluates by `rfl`). -/
def pyUpper (s : String) : String :=
  String.mk (s.data.map Char.toUpper)

/-- Python `str.lower()`: lowercase each character. -/
def pyLower (s : String) : String :=
  String.mk (s.data.map Char.toLower)

/-- The check `validate_grade(g)`: accepts anything non-empty (lines 77-83). -/
def validate_grade (g : String) : Bool :=
  if g = "" then false else true

/-- The scan `search_by_roll(roll_no)` (lines 86-91): walk `students` for the first
`s` with `s["roll_no"] == roll_no`. Indexing a non-dict raises `TypeError`;
a dict without the key raises `KeyError`; comparing a non-string value with
the string `roll_no` is `False` in Python, so the scan continues. -/
def search_by_roll (students : List Json) (roll_no : String) :
    Except String (Option Json) :=
  match students with
  | [] => .ok none
  | s :: rest =>
    match s with
    | .obj kvs =>
      match lookupKey kvs "roll_no" with
      | some v =>
        if v = Json.str roll_no then .ok (some s)
        else search_by_roll rest roll_no
      | none => .error "KeyError"
    | _ => .error "TypeError"

/-- The dict literal appended by `add_student` (lines 128-133). -/
def mkStudent (roll name grade age : String) : Json :=
  .obj [("roll_no", .str roll), ("name", .str name),
        ("grade", .str grade), ("age", .str age)]

/-- The operation `add_student()` (lines 113-135), with the four prompted inputs as
parameters. Returns the new collection and whether `save_data` was called.
Duplicate roll: rejected, nothing appended, no save. Invalid grade:
rejected, no save. Otherwise appends the record with `grade.upper()` and
saves. -/
def add_student (students : List Json) (roll name grade age : String) :
    Except String (List Json × Bool) :=
  match search_by_roll students roll with
  | .error e => .error e
  | .ok (some _) => .ok (students, false)
  | .ok none =>
    if validate_grade grade then
      .ok (students ++ [mkStudent roll name (pyUpper grade) age], true)
    else
      .ok (students, false)

/-- The in-place field mutations of `update_student` (lines 167-175),
acting on the found record's dict. Returns the mutated dict and whether
control reaches `save_data()` (false on the invalid-grade cancel path,
where the name assignment has already happened). Note the age branch
condition `new_age or new_age == ""` is always true. -/
def updateRecord (kvs : List (String × Json))
    (new_name new_grade new_age : String) : List (String × Json) × Bool :=
  let kvs1 := if new_name ≠ "" then setKey kvs "name" (.str new_name) else kvs
  if new_grade ≠ "" ∧ validate_grade new_grade = false then
    (kvs1, false)
  else
    let kvs2 :=
      if new_grade ≠ "" then setKey kvs1 "grade" (.str (pyUpper new_grade))
      else kvs1
    (setKey kvs2 "age" (.str new_age), true)

/-- The operation `update_student()` (lines 154-178): find the first record matching
`roll` (same scan as `search_by_roll`, with the same exceptions), mutate it
in place via `updateRecord`, then save unless canceled. Not-found is a
no-op without save. -/
def update_student (students : List Json)
    (roll new_name new_grade new_age : String) :
    Except String (List Json × Bool) :=
  match students with
  | [] => .ok ([], false)
  | s :: rest =>
    match s with
    | .obj kvs =>
      match lookupKey kvs "roll_no" with
      | some v =>
        if v = Json.str roll then
          let r := updateRecord kvs new_name new_grade new_age
          .ok (Json.obj r.1 :: rest, r.2)
        else
          match update_student rest roll new_name new_grade new_age with
          | .ok (rest', b) => .ok (s :: rest', b)
          | .error e => .error e
      | none => .error "KeyError"
    | _ => .error "TypeError"

/-- Python `list.remove(x)`: delete the first element equal to `x`. -/
def removeFirst : List Json → Json → List Json
  | [], _ => []
  | s :: rest, x => if s = x then rest else s :: removeFirst rest x

/-- The operation `delete_student()` (lines 181-195): find the record, print a
confirmation message accessing `s["name"]` and `s["roll_no"]` (a missing
`"name"` key raises `KeyError`), and on confirmation `y` (case-insensitive)
remove the record and save; otherwise leave the collection untouched. -/
def delete_student (students : List Json) (roll confirm : String) :
    Except String (List Json × Bool) :=
  match search_by_roll students roll with
  | .error e => .error e
  | .ok none => .ok (students, false)
  | .ok (some s) =>
    match s with
    | .obj kvs =>
      match lookupKey kvs "name" with
      | none => .error "KeyError"
      | some _ =>
        if pyLower confirm = "y" then .ok (removeFirst students s, true)
        else .ok (students, false)
    | _ => .error "TypeError"

/-- State of the backing `data.json` file. -/
inductive FileState where
  | missing
  | unreadable
  | invalid
  | valid (j : Json)
  deriving DecidableEq

/-- The loader `load_data()` (lines 34-47): returns (file state after the call,
loaded collection, whether a warning was printed). Missing file: empty
collection, silent. Unreadable (`OSError`) or unparseable
(`JSONDecodeError`): empty collection plus a warning. Parsed JSON that is
a list: returned as-is, silent. Parsed JSON that is not a list: empty
collection plus a warning. The file itself is never written. -/
def load_data (fs : FileState) : FileState × List Json × Bool :=
  match fs with
  | .missing => (fs, [], false)
  | .unreadable => (fs, [], true)
  | .invalid => (fs, [], true)
  | .valid j =>
    match j with
    | .arr l => (fs, l, false)
    | _ => (fs, [], true)

/-- The writer `save_data()` (lines 50-56), successful-write path: the file now parses
to the JSON array of the in-memory records. -/
def save_data (students : List Json) : FileState :=
  .valid (.arr students)

/-- The `roll_no` value of a record, when it is a dict carrying that key. -/
def rollOf : Json → Option Json
  | .obj kvs => lookupKey kvs "roll_no"
  | _ => none

/-- Uniqueness invariant: no two records of the collection share the same
`roll_no`. -/
def UniqueRolls (students : List Json) : Prop :=
  (students.map rollOf).Nodup

/-- A record the code can operate on without raising: a dict carrying the
`roll_no` and `name` keys. -/
def WellFormedRec (s : Json) : Prop :=
  ∃ kvs, s = Json.obj kvs ∧ (lookupKey kvs "roll_no").isSome ∧
    (lookupKey kvs "name").isSome

def WellFormed (students : List Json) : Prop :=
  ∀ s ∈ students, WellFormedRec s

/-- A record the scan of `search_by_roll roll` steps over without raising
and without matching: a dict whose `roll_no` value differs from `roll`. -/
def NonMatch (roll : String) (t : Json) : Prop :=
  ∃ kvs v, t = Json.obj kvs ∧ lookupKey kvs "roll_no" = some v ∧
    v ≠ Json.str roll

theorem lookupKey_setKey_ne (kvs : List (String × Json)) (k k' : String)
    (v : Json) (h : k ≠ k') :
    lookupKey (setKey kvs k v) k' = lookupKey kvs k' := by
  induction kvs with
  | nil => simp [setKey, lookupKey, h]
  | cons p rest ih =>
    obtain ⟨k0, v0⟩ := p
    by_cases hk : k0 = k
    · subst hk
      simp [setKey, lookupKey, h]
    · simp only [setKey, if_neg hk, lookupKey]
      by_cases hk' : k0 = k'
      · simp [hk']
      · simp [hk', ih]

theorem search_ok_none_iff (students : List Json) (roll : String) :
    search_by_roll students roll = .ok none ↔
      ∀ t ∈ students, NonMatch roll t := by
  induction students with
  | nil => simp [search_by_roll]
  | cons s rest ih =>
    constructor
    · intro h t ht
      rcases s with _ | b | n | str | l | kvs <;>
        simp only [search_by_roll] at h
      · cases h
      · cases h
      · cases h
      · cases h
      · cases h
      · rcases hv : lookupKey kvs "roll_no" with _ | v
        · simp only [hv] at h
          cases h
        · simp only [hv] at h
          by_cases he : v = Json.str roll
          · rw [if_pos he] at h; cases h
          · rw [if_neg he] at h
            rcases List.mem_cons.mp ht with rfl | ht'
            · exact ⟨kvs, v, rfl, hv, he⟩
            · exact (ih.mp h) t ht'
    · intro h
      obtain ⟨kvs, v, rfl, hv, he⟩ := h s (List.mem_cons_self s rest)
      simp only [search_by_roll, hv, if_neg he]
      exact ih.mpr fun t ht => h t (List.mem_cons_of_mem _ ht)

theorem search_ok_some_decomp (students : List Json) (roll : String)
    (s : Json) (h : search_by_roll students roll = .ok (some s)) :
    ∃ pre post kvs, students = pre ++ s :: post ∧
      (∀ t ∈ pre, NonMatch roll t) ∧ s = Json.obj kvs ∧
      lookupKey kvs "roll_no" = some (Json.str roll) := by
  induction students with
  | nil => simp [search_by_roll] at h
  | cons s0 rest ih =>
    rcases s0 with _ | b | n | str | l | kvs <;>
      simp only [search_by_roll] at h
    · cases h
    · cases h
    · cases h
    · cases h
    · cases h
    · rcases hv : lookupKey kvs "roll_no" with _ | v
      · simp only [hv] at h
        cases h
      · simp only [hv] at h
        by_cases he : v = Json.str roll
        · rw [if_pos he] at h
          injection h with h
          injection h with h
          subst he
          exact ⟨[], rest, kvs, by rw [h]; rfl, by simp, h ▸ rfl, hv⟩
        · rw [if_neg he] at h
          obtain ⟨pre, post, kvs', heq, hpre, hs, hk⟩ := ih h
          exact ⟨Json.obj kvs :: pre, post, kvs', by rw [heq]; rfl,
            by
              intro t ht
              rcases List.mem_cons.mp ht with rfl | ht'
              · exact ⟨kvs, v, rfl, hv, he⟩
              · exact hpre t ht',
            hs, hk⟩

theorem search_append_nonmatch (pre rest : List Json) (roll : String)
    (hpre : ∀ t ∈ pre, NonMatch roll t) :
    search_by_roll (pre ++ rest) roll = search_by_roll rest roll := by
  induction pre with
  | nil => rfl
  | cons t pre' ih =>
    obtain ⟨kvs, v, rfl, hv, he⟩ := hpre t (List.mem_cons_self t pre')
    simp only [List.cons_append, search_by_roll, hv, if_neg he]
    exact ih fun t ht => hpre t (List.mem_cons_of_mem _ ht)

theorem update_append_nonmatch (pre rest : List Json) (roll a b c : String)
    (hpre : ∀ t ∈ pre, NonMatch roll t) :
    update_student (pre ++ rest) roll a b c =
      match update_student rest roll a b c with
      | .ok r => .ok (pre ++ r.1, r.2)
      | .error e => .error e := by
  induction pre with
  | nil =>
    cases hrest : update_student rest roll a b c with
    | ok r => simp [hrest]
    | error e => simp [hrest]
  | cons t pre' ih =>
    obtain ⟨kvs, v, rfl, hv, he⟩ := hpre t (List.mem_cons_self t pre')
    simp only [List.cons_append, update_student, hv, if_neg he,
      List.append_eq]
    rw [ih fun t ht => hpre t (List.mem_cons_of_mem _ ht)]
    cases update_student rest roll a b c with
    | ok r => rfl
    | error e => rfl

theorem removeFirst_cons_self (rest : List Json) (x : Json) :
    removeFirst (x :: rest) x = rest := by
  simp [removeFirst]

theorem removeFirst_append_ne (pre rest : List Json) (x : Json)
    (hpre : ∀ t ∈ pre, t ≠ x) :
    removeFirst (pre ++ rest) x = pre ++ removeFirst rest x := by
  induction pre with
  | nil => rfl
  | cons t pre' ih =>
    simp only [List.cons_append, removeFirst, List.append_eq,
      if_neg (hpre t (List.mem_cons_self t pre'))]
    rw [ih fun t ht => hpre t (List.mem_cons_of_mem _ ht)]

theorem removeFirst_sublist (l : List Json) (x : Json) :
    List.Sublist (removeFirst l x) l := by
  induction l with
  | nil => simp [removeFirst]
  | cons t rest ih =>
    by_cases h : t = x
    · simp only [removeFirst, if_pos h]
      exact (List.sublist_cons_self t rest)
    · simp only [removeFirst, if_neg h]
      exact List.Sublist.cons₂ t ih

theorem nonmatch_ne (roll : String) (t : Json) (kvs : List (String × Json))
    (ht : NonMatch roll t)
    (hs : lookupKey kvs "roll_no" = some (Json.str roll)) :
    t ≠ Json.obj kvs := by
  obtain ⟨kvs', v, rfl, hv, he⟩ := ht
  intro hcontra
  injection hcontra with h
  subst h
  rw [hv] at hs
  injection hs with h
  exact he h

theorem lookupKey_setKey_self (kvs : List (String × Json)) (k : String)
    (v : Json) : lookupKey (setKey kvs k v) k = some v := by
  induction kvs with
  | nil => simp [setKey, lookupKey]
  | cons p rest ih =>
    obtain ⟨k0, v0⟩ := p
    by_cases hk : k0 = k
    · subst hk
      simp [setKey, lookupKey]
    · simp [setKey, lookupKey, hk, ih]

/-- The invalid-grade cancel branch of `update_student` is unreachable:
the only grade `validate_grade` rejects is the empty string, and an empty
grade input is already filtered out by the keep-current check. -/
theorem updateRecord_cancel_false (g : String) :
    ¬(g ≠ "" ∧ validate_grade g = false) := by
  rintro ⟨hg, hv⟩
  unfold validate_grade at hv
  rw [if_neg hg] at hv
  cases hv

/-- Closed form of `updateRecord`: the cancel branch never fires, so the
update always overwrites `age` with the input (even when blank), and
conditionally overwrites `name` and `grade`. -/
theorem updateRecord_eq (kvs : List (String × Json)) (a g c : String) :
    updateRecord kvs a g c =
      (setKey
        (if g ≠ "" then
          setKey (if a ≠ "" then setKey kvs "name" (.str a) else kvs)
            "grade" (.str (pyUpper g))
        else
          if a ≠ "" then setKey kvs "name" (.str a) else kvs)
        "age" (.str c), true) := by
  simp only [updateRecord]
  rw [if_neg (updateRecord_cancel_false g)]

theorem updateRecord_preserves_roll (kvs : List (String × Json))
    (a g c : String) :
    lookupKey (updateRecord kvs a g c).1 "roll_no" =
      lookupKey kvs "roll_no" := by
  rw [updateRecord_eq]
  rw [lookupKey_setKey_ne _ "age" "roll_no" _ (by decide)]
  by_cases hg : g ≠ "" <;> by_cases ha : a ≠ "" <;>
    simp [hg, ha, lookupKey_setKey_ne _ "grade" "roll_no" _ (by decide),
      lookupKey_setKey_ne _ "name" "roll_no" _ (by decide)]

/-- Running `update_student` on a collection whose first match is `Json.obj kvs`:
the record is mutated in place via `updateRecord`, everything else is
untouched, and the update is persisted. -/
theorem update_found (pre post : List Json) (kvs : List (String × Json))
    (roll a g c : String) (hpre : ∀ t ∈ pre, NonMatch roll t)
    (hk : lookupKey kvs "roll_no" = some (Json.str roll)) :
    update_student (pre ++ Json.obj kvs :: post) roll a g c =
      .ok (pre ++ Json.obj (updateRecord kvs a g c).1 :: post,
        (updateRecord kvs a g c).2) := by
  rw [update_append_nonmatch pre _ roll a g c hpre]
  simp only [update_student, hk, if_pos rfl]
  simp

theorem update_preserves_rolls (l : List Json) (roll a g c : String)
    (l' : List Json) (b : Bool)
    (h : update_student l roll a g c = .ok (l', b)) :
    l'.map rollOf = l.map rollOf := by
  induction l generalizing l' b with
  | nil =>
    simp only [update_student] at h
    injection h with h
    injection h with h1 h2
    rw [← h1]
  | cons s rest ih =>
    rcases s with _ | b0 | n0 | s0 | l0 | kvs <;>
      simp only [update_student] at h
    · cases h
    · cases h
    · cases h
    · cases h
    · cases h
    · rcases hv : lookupKey kvs "roll_no" with _ | v
      · simp only [hv] at h
        cases h
      · simp only [hv] at h
        by_cases he : v = Json.str roll
        · rw [if_pos he] at h
          injection h with h
          injection h with h1 h2
          rw [← h1]
          simp only [List.map_cons, List.map]
          rw [show rollOf (Json.obj (updateRecord kvs a g c).1) =
              lookupKey (updateRecord kvs a g c).1 "roll_no" from rfl,
            updateRecord_preserves_roll]
          rfl
        · rw [if_neg he] at h
          rcases hrest : update_student rest roll a g c with e | r
          · rw [hrest] at h
            cases h
          · rw [hrest] at h
            obtain ⟨rest', b'⟩ := r
            injection h with h
            injection h with h1 h2
            rw [← h1]
            simp only [List.map_cons]
            rw [ih rest' b' hrest]

/-- C1 (counterexample): adding with grade `"a"` stores grade `"A"`, so the
record returned by `findByRoll` after `add` is not equal to the input
record: its `grade` field differs. -/
theorem add_then_find_not_equal_input :
    add_student [] "101" "Alice" "a" "15" =
      .ok ([mkStudent "101" "Alice" "A" "15"], true) ∧
    search_by_roll [mkStudent "101" "Alice" "A" "15"] "101" =
      .ok (some (mkStudent "101" "Alice" "A" "15")) ∧
    mkStudent "101" "Alice" "A" "15" ≠ mkStudent "101" "Alice" "a" "15" :=
  ⟨rfl, rfl, by decide⟩

/-- C1 (amended): for every collection and valid record with a fresh
rollNo, `add` appends the record with its grade upper-cased and saves, and
`findByRoll` then returns exactly that stored record — same rollNo, name
and age as the input, and grade equal to the upper-cased input grade (so
equal to the input record whenever its grade is already upper-case). -/
theorem add_then_find (students : List Json) (roll name grade age : String)
    (hfresh : search_by_roll students roll = .ok none)
    (hgrade : grade ≠ "") :
    add_student students roll name grade age =
      .ok (students ++ [mkStudent roll name (pyUpper grade) age], true) ∧
    search_by_roll (students ++ [mkStudent roll name (pyUpper grade) age])
      roll = .ok (some (mkStudent roll name (pyUpper grade) age)) := by
  constructor
  · simp [add_student, hfresh, validate_grade, hgrade]
  · rw [search_append_nonmatch _ _ _
      ((search_ok_none_iff students roll).mp hfresh)]
    simp [search_by_roll, mkStudent, lookupKey]

theorem add_then_find_witness :
    add_student [] "101" "Alice" "a" "15" =
      .ok ([] ++ [mkStudent "101" "Alice" (pyUpper "a") "15"], true) ∧
    search_by_roll ([] ++ [mkStudent "101" "Alice" (pyUpper "a") "15"])
      "101" = .ok (some (mkStudent "101" "Alice" (pyUpper "a") "15")) :=
  add_then_find [] "101" "Alice" "a" "15" rfl (by decide)

/-- C4: attempting to add a record whose rollNo already occurs in the
collection leaves the collection unchanged (same list, hence same size and
content) and does not call `save_data`. -/
theorem add_duplicate_rejected (students : List Json)
    (roll name grade age : String) (s : Json)
    (hdup : search_by_roll students roll = .ok (some s)) :
    add_student students roll name grade age = .ok (students, false) := by
  simp [add_student, hdup]

theorem add_duplicate_rejected_witness :
    add_student [mkStudent "101" "Alice" "A" "15"] "101" "Bob" "B" "16" =
      .ok ([mkStudent "101" "Alice" "A" "15"], false) :=
  add_duplicate_rejected _ "101" "Bob" "B" "16"
    (mkStudent "101" "Alice" "A" "15") rfl

/-- C2 (counterexample): an update with all three inputs blank does NOT
leave the record unchanged: the age branch condition
`new_age or new_age == ""` is always true, so age is overwritten with the
empty string. On `{roll 101, Alice, A, 15}` the record's age becomes `""`. -/
theorem update_all_blank_changes_record :
    update_student [mkStudent "101" "Alice" "A" "15"] "101" "" "" "" =
      .ok ([mkStudent "101" "Alice" "A" ""], true) ∧
    mkStudent "101" "Alice" "A" "" ≠ mkStudent "101" "Alice" "A" "15" :=
  ⟨rfl, by decide⟩

/-- C2 (amended): on any existing record, an update with all three inputs
blank keeps `name` and `grade` but always overwrites `age` with the empty
string (so the record is unchanged only if its age was already empty); an
update supplying only a non-empty `name` sets `name`, keeps `grade`, and
likewise clears `age`. -/
theorem update_blank_fields (pre post : List Json)
    (roll name grade age nm : String)
    (hpre : ∀ t ∈ pre, NonMatch roll t) (hnm : nm ≠ "") :
    update_student (pre ++ mkStudent roll name grade age :: post)
        roll "" "" "" =
      .ok (pre ++ mkStudent roll name grade "" :: post, true) ∧
    update_student (pre ++ mkStudent roll name grade age :: post)
        roll nm "" "" =
      .ok (pre ++ mkStudent roll nm grade "" :: post, true) := by
  have hk : lookupKey [("roll_no", Json.str roll), ("name", Json.str name),
      ("grade", Json.str grade), ("age", Json.str age)] "roll_no" =
      some (Json.str roll) := rfl
  constructor
  · have h := update_found pre post
      [("roll_no", Json.str roll), ("name", Json.str name),
       ("grade", Json.str grade), ("age", Json.str age)]
      roll "" "" "" hpre hk
    rw [updateRecord_eq] at h
    simpa [mkStudent, setKey] using h
  · have h := update_found pre post
      [("roll_no", Json.str roll), ("name", Json.str name),
       ("grade", Json.str grade), ("age", Json.str age)]
      roll nm "" "" hpre hk
    rw [updateRecord_eq] at h
    simpa [mkStudent, setKey, hnm] using h

theorem update_blank_fields_witness :
    update_student ([] ++ mkStudent "101" "Alice" "A" "15" :: [])
        "101" "" "" "" =
      .ok ([] ++ mkStudent "101" "Alice" "A" "" :: [], true) ∧
    update_student ([] ++ mkStudent "101" "Alice" "A" "15" :: [])
        "101" "Bob" "" "" =
      .ok ([] ++ mkStudent "101" "Bob" "A" "" :: [], true) :=
  update_blank_fields [] [] "101" "Alice" "A" "15" "Bob"
    (by intro t ht; cases ht) (by decide)

/-- C3 (counterexample): giving `update` the only invalid grade shape (the
empty string) does NOT abort the operation: the blank-grade input is
treated as "keep the current grade", the other supplied fields are
mutated, and the result is persisted (`save_data` is called). -/
theorem update_empty_grade_not_aborted :
    update_student [mkStudent "101" "Alice" "A" "15"] "101" "Bob" "" "16" =
      .ok ([mkStudent "101" "Bob" "A" "16"], true) ∧
    mkStudent "101" "Bob" "A" "16" ≠ mkStudent "101" "Alice" "A" "15" :=
  ⟨rfl, by decide⟩

/-- C3 (amended): when `update` is given an empty (the only invalid shape)
grade, the record's `grade` field is left exactly as it was — but the
operation is NOT aborted: the remaining fields are applied and the result
is persisted (the flag `true` below is "`save_data` was called"). The
explicit invalid-grade abort branch is unreachable, because the only
grade `validate_grade` rejects is the empty string, which the
keep-current check has already filtered out; so no update ever stores an
invalid grade. -/
theorem update_empty_grade_keeps_grade (pre post : List Json)
    (kvs : List (String × Json)) (roll a c : String)
    (hpre : ∀ t ∈ pre, NonMatch roll t)
    (hk : lookupKey kvs "roll_no" = some (Json.str roll)) :
    ∃ kvs', update_student (pre ++ Json.obj kvs :: post) roll a "" c =
        .ok (pre ++ Json.obj kvs' :: post, true) ∧
      lookupKey kvs' "grade" = lookupKey kvs "grade" := by
  refine ⟨(updateRecord kvs a "" c).1, ?_, ?_⟩
  · rw [update_found pre post kvs roll a "" c hpre hk]
    rw [updateRecord_eq]
  · rw [updateRecord_eq]
    simp only []
    rw [lookupKey_setKey_ne _ "age" "grade" _ (by decide)]
    simp only [ne_eq, not_true_eq_false, if_false]
    by_cases ha : a ≠ ""
    · rw [if_pos ha, lookupKey_setKey_ne _ "name" "grade" _ (by decide)]
    · rw [if_neg ha]

theorem update_empty_grade_keeps_grade_witness :
    ∃ kvs', update_student
        ([] ++ Json.obj [("roll_no", Json.str "101"),
          ("name", Json.str "Alice"), ("grade", Json.str "A"),
          ("age", Json.str "15")] :: []) "101" "Bob" "" "16" =
        .ok ([] ++ Json.obj kvs' :: [], true) ∧
      lookupKey kvs' "grade" =
        lookupKey [("roll_no", Json.str "101"), ("name", Json.str "Alice"),
          ("grade", Json.str "A"), ("age", Json.str "15")] "grade" :=
  update_empty_grade_keeps_grade [] []
    [("roll_no", Json.str "101"), ("name", Json.str "Alice"),
     ("grade", Json.str "A"), ("age", Json.str "15")]
    "101" "Bob" "16" (by intro t ht; cases ht) rfl

/-- C9: the grade stored in the collection is the upper-cased form of the
input — on `add` (the appended record carries `pyUpper grade`) and on
`update` whenever a non-empty grade is supplied. -/
theorem grade_stored_uppercased
    (students : List Json) (roll name grade age : String)
    (pre post : List Json) (kvs : List (String × Json))
    (roll2 a g c : String)
    (hfresh : search_by_roll students roll = .ok none) (hgrade : grade ≠ "")
    (hpre : ∀ t ∈ pre, NonMatch roll2 t)
    (hk : lookupKey kvs "roll_no" = some (Json.str roll2)) (hg : g ≠ "") :
    add_student students roll name grade age =
      .ok (students ++ [mkStudent roll name (pyUpper grade) age], true) ∧
    (∃ kvs', update_student (pre ++ Json.obj kvs :: post) roll2 a g c =
        .ok (pre ++ Json.obj kvs' :: post, true) ∧
      lookupKey kvs' "grade" = some (Json.str (pyUpper g))) := by
  constructor
  · simp [add_student, hfresh, validate_grade, hgrade]
  · refine ⟨(updateRecord kvs a g c).1, ?_, ?_⟩
    · rw [update_found pre post kvs roll2 a g c hpre hk, updateRecord_eq]
    · rw [updateRecord_eq]
      simp only []
      rw [lookupKey_setKey_ne _ "age" "grade" _ (by decide),
        if_pos hg, lookupKey_setKey_self]

theorem grade_stored_uppercased_witness :
    add_student [] "101" "Alice" "a" "15" =
      .ok ([] ++ [mkStudent "101" "Alice" (pyUpper "a") "15"], true) ∧
    (∃ kvs', update_student
        ([] ++ Json.obj [("roll_no", Json.str "102"),
          ("name", Json.str "Bob"), ("grade", Json.str "B"),
          ("age", Json.str "16")] :: []) "102" "" "c" "" =
        .ok ([] ++ Json.obj kvs' :: [], true) ∧
      lookupKey kvs' "grade" = some (Json.str (pyUpper "c"))) :=
  grade_stored_uppercased [] "101" "Alice" "a" "15" [] []
    [("roll_no", Json.str "102"), ("name", Json.str "Bob"),
     ("grade", Json.str "B"), ("age", Json.str "16")]
    "102" "" "c" "" rfl (by decide) (by intro t ht; cases ht) rfl (by decide)

/-- C5: deleting an existing record with confirmation `y`, on a
well-formed collection satisfying the uniqueness invariant, persists a
collection in which `findByRoll` for that roll returns none and whose
length decreased by exactly one. -/
theorem delete_then_find (students : List Json) (roll : String) (s : Json)
    (hfound : search_by_roll students roll = .ok (some s))
    (hwf : WellFormed students) (huniq : UniqueRolls students) :
    ∃ students', delete_student students roll "y" = .ok (students', true) ∧
      search_by_roll students' roll = .ok none ∧
      students'.length + 1 = students.length := by
  obtain ⟨pre, post, kvs, heq, hpre, hs, hk⟩ :=
    search_ok_some_decomp students roll s hfound
  subst hs
  obtain ⟨kvs2, hs2, hroll2, hname2⟩ :=
    hwf (Json.obj kvs) (by rw [heq]; simp)
  injection hs2 with hkv
  subst hkv
  rcases hn : lookupKey kvs "name" with _ | nv
  · rw [hn] at hname2
    simp at hname2
  have hprene : ∀ t ∈ pre, t ≠ Json.obj kvs :=
    fun t ht => nonmatch_ne roll t kvs (hpre t ht) hk
  have hrem : removeFirst students (Json.obj kvs) = pre ++ post := by
    rw [heq, removeFirst_append_ne pre _ _ hprene, removeFirst_cons_self]
  have hpost : ∀ t ∈ post, NonMatch roll t := by
    intro t ht
    obtain ⟨kt, hts, hkt, _⟩ := hwf t (by rw [heq]; simp [ht])
    rcases hv : lookupKey kt "roll_no" with _ | vt
    · rw [hv] at hkt
      simp at hkt
    · refine ⟨kt, vt, hts, hv, ?_⟩
      intro hvt
      subst hvt
      have hmap : (students.map rollOf).Nodup := huniq
      rw [heq, List.map_append, List.map_cons] at hmap
      have h2 := hmap.of_append_right
      rw [List.nodup_cons] at h2
      apply h2.1
      refine List.mem_map.mpr ⟨t, ht, ?_⟩
      rw [hts]
      exact hv.trans hk.symm
  refine ⟨pre ++ post, ?_, ?_, ?_⟩
  · simp only [delete_student, hfound, hn]
    rw [if_pos (show pyLower "y" = "y" from rfl), hrem]
  · rw [search_append_nonmatch _ _ _ hpre]
    exact (search_ok_none_iff post roll).mpr hpost
  · rw [heq]
    simp [List.length_append]
    omega

theorem delete_then_find_witness :
    ∃ students', delete_student [mkStudent "101" "Alice" "A" "15"]
        "101" "y" = .ok (students', true) ∧
      search_by_roll students' "101" = .ok none ∧
      students'.length + 1 = [mkStudent "101" "Alice" "A" "15"].length :=
  delete_then_find [mkStudent "101" "Alice" "A" "15"] "101"
    (mkStudent "101" "Alice" "A" "15") rfl
    (by
      intro t ht
      rw [List.mem_singleton] at ht
      exact ⟨[("roll_no", Json.str "101"), ("name", Json.str "Alice"),
        ("grade", Json.str "A"), ("age", Json.str "15")],
        by rw [ht]; rfl, rfl, rfl⟩)
    (by unfold UniqueRolls; decide)

/-- C8: starting from a collection in which no two records share a
`roll_no`, each mutating operation preserves that invariant. `add`
rejects an existing key (so a duplicate is never inserted); `update`
leaves the whole sequence of `roll_no` values literally unchanged (it
never writes the `roll_no` field); `delete` only removes. The read-only
operations (`search_by_roll`, list-all) do not modify the collection in
the source, so there is nothing to preserve for them. -/
theorem uniqueness_preserved (l : List Json) (hu : UniqueRolls l) :
    (∀ roll name grade age l' b,
      add_student l roll name grade age = .ok (l', b) → UniqueRolls l') ∧
    (∀ roll a g c l' b,
      update_student l roll a g c = .ok (l', b) →
        l'.map rollOf = l.map rollOf ∧ UniqueRolls l') ∧
    (∀ roll confirm l' b,
      delete_student l roll confirm = .ok (l', b) → UniqueRolls l') := by
  refine ⟨?_, ?_, ?_⟩
  · intro roll name grade age l' b h
    rcases hs : search_by_roll l roll with e | o
    · simp only [add_student, hs] at h
      cases h
    · rcases o with _ | s
      · simp only [add_student, hs] at h
        by_cases hv : validate_grade grade
        · rw [if_pos hv] at h
          injection h with h
          injection h with h1 h2
          rw [← h1]
          unfold UniqueRolls
          rw [List.map_append]
          rw [List.nodup_append]
          refine ⟨hu, by simp, ?_⟩
          intro x hx hx1
          simp only [List.map_cons, List.map_nil, List.mem_cons,
            List.not_mem_nil, or_false] at hx1
          obtain ⟨t, ht, hrt⟩ := List.mem_map.mp hx
          obtain ⟨kt, vt, hts, hkt, hne⟩ :=
            (search_ok_none_iff l roll).mp hs t ht
          apply hne
          have : rollOf t = some vt := by rw [hts]; exact hkt
          rw [hx1] at hrt
          rw [hrt] at this
          injection this with h3
          exact h3.symm
        · rw [if_neg hv] at h
          injection h with h
          injection h with h1 h2
          rw [← h1]
          exact hu
      · simp only [add_student, hs] at h
        injection h with h
        injection h with h1 h2
        rw [← h1]
        exact hu
  · intro roll a g c l' b h
    have hmap := update_preserves_rolls l roll a g c l' b h
    exact ⟨hmap, by unfold UniqueRolls; rw [hmap]; exact hu⟩
  · intro roll confirm l' b h
    rcases hs : search_by_roll l roll with e | o
    · simp only [delete_student, hs] at h
      cases h
    · rcases o with _ | s
      · simp only [delete_student, hs] at h
        injection h with h
        injection h with h1 h2
        rw [← h1]
        exact hu
      · rcases s with _ | b0 | n0 | s0 | l0 | kvs <;>
          simp only [delete_student, hs] at h
        · cases h
        · cases h
        · cases h
        · cases h
        · cases h
        · rcases hn : lookupKey kvs "name" with _ | nv
          · simp only [hn] at h
            cases h
          · simp only [hn] at h
            by_cases hc : pyLower confirm = "y"
            · rw [if_pos hc] at h
              injection h with h
              injection h with h1 h2
              rw [← h1]
              unfold UniqueRolls
              exact List.Nodup.sublist
                (List.Sublist.map rollOf
                  (removeFirst_sublist l (Json.obj kvs))) hu
            · rw [if_neg hc] at h
              injection h with h
              injection h with h1 h2
              rw [← h1]
              exact hu

theorem uniqueness_preserved_witness :
    UniqueRolls ([mkStudent "102" "Bob" "B" "16"] ++
      [mkStudent "101" "Alice" (pyUpper "A") "15"]) :=
  (uniqueness_preserved [mkStudent "102" "Bob" "B" "16"]
      (by unfold UniqueRolls; decide)).1
    "101" "Alice" "A" "15"
    ([mkStudent "102" "Bob" "B" "16"] ++
      [mkStudent "101" "Alice" (pyUpper "A") "15"]) true rfl

/-- C6 (counterexample): a readable file whose content parses to a JSON
array of non-objects is NOT replaced by the empty collection —
`load_data` only checks `isinstance(data, list)` and returns the array
unchanged (and without a warning). -/
theorem load_nonobject_array_not_empty :
    load_data (.valid (.arr [.num 1])) =
      (.valid (.arr [.num 1]), [Json.num 1], false) ∧
    ([Json.num 1] : List Json) ≠ [] :=
  ⟨rfl, by decide⟩

/-- C6 (amended): `load_data` returns the empty collection silently for a
missing file; the empty collection plus a warning when the file cannot be
read or parsed, or when the parsed JSON is not an array; and any parsed
JSON array — whatever its elements — unchanged and silently. The file
state is returned untouched in every case: loading never writes. -/
theorem load_data_spec :
    load_data .missing = (.missing, [], false) ∧
    load_data .unreadable = (.unreadable, [], true) ∧
    load_data .invalid = (.invalid, [], true) ∧
    (∀ l, load_data (.valid (.arr l)) = (.valid (.arr l), l, false)) ∧
    (∀ j : Json, (∀ l, j ≠ .arr l) →
      load_data (.valid j) = (.valid j, [], true)) := by
  refine ⟨rfl, rfl, rfl, fun l => rfl, fun j hj => ?_⟩
  cases j with
  | null => rfl
  | bool b => rfl
  | num n => rfl
  | str s => rfl
  | arr l => exact absurd rfl (hj l)
  | obj kvs => rfl

theorem load_data_spec_witness :
    load_data (.valid (.obj [])) = (.valid (.obj []), [], true) :=
  load_data_spec.2.2.2.2 (.obj []) (fun l => by simp)

/-- C7: saving any collection and loading it back returns exactly the
same list of records, in the same order, with no warning, as the loaded
array is handed back unchanged. -/
theorem save_load_roundtrip (students : List Json) :
    load_data (save_data students) = (save_data students, students, false) :=
  rfl

/-- C10: `search_by_roll` is total only on collections of dicts carrying
`"roll_no"`. There is file content `load_data` accepts unchanged and
without warning — a JSON array with a non-object element, or with an
object lacking `"roll_no"` — on which `search_by_roll`, and with it
`update_student` and `delete_student` (which scan the same way), raise an
exception instead of returning none. -/
theorem search_partial_on_loadable :
    load_data (.valid (.arr [.num 1])) =
      (.valid (.arr [.num 1]), [Json.num 1], false) ∧
    search_by_roll [Json.num 1] "101" = .error "TypeError" ∧
    update_student [Json.num 1] "101" "x" "" "" = .error "TypeError" ∧
    delete_student [Json.num 1] "101" "y" = .error "TypeError" ∧
    load_data (.valid (.arr [.obj [("name", Json.str "x")]])) =
      (.valid (.arr [.obj [("name", Json.str "x")]]),
        [Json.obj [("name", Json.str "x")]], false) ∧
    search_by_roll [Json.obj [("name", Json.str "x")]] "101" =
      .error "KeyError" :=
  ⟨rfl, rfl, rfl, rfl, rfl, rfl⟩

end StudentMgmt
